import Mathlib

/-
Verification of the Media Transfer Software HTTPS upload server
(src/Media Transfer Software/server.js).

The server is shallowly embedded as pure Lean functions:
- request handlers become functions from request data to response records;
- filesystem and clock effects become explicit inputs (readdir results, stat
  oracles, ISO timestamp strings, TLS file-read results);
- behavior of the third-party libraries the server calls (the Node path
  module, the multer upload middleware) is modelled from the documented
  behavior of those libraries, since only server.js is part of this
  repository.
-/

/-! ## Model of the Node path module (POSIX rules)

The Node functions path.extname and path.basename are library code, not part
of this repository; the definitions below model their documented POSIX
behavior on the character list of a path. -/

/-- Models how the Node path functions isolate the final path component:
trailing path separators are ignored, and the component is the run of
characters after the last remaining separator. -/
def lastComponent (p : List Char) : List Char :=
  ((p.reverse.dropWhile (fun c => c == '/')).takeWhile (fun c => !(c == '/'))).reverse

/-- Index of the last occurrence of a dot in a list of characters, if any. -/
def lastDotIdx : List Char → Option Nat
  | [] => none
  | c :: rest =>
    match lastDotIdx rest with
    | some i => some (i + 1)
    | none => if c = '.' then some 0 else none

/-- Models path.extname restricted to a single path component: the substring
from the last dot to the end, except that a component with no dot, a
component whose only relevant dot is its first character, and the special
component consisting of two dots all have an empty extension. -/
def extnameAux (b : List Char) : List Char :=
  match lastDotIdx b with
  | none => []
  | some i => if i = 0 ∨ b = ['.', '.'] then [] else b.drop i

/-- Models Node path.extname (POSIX): the extension of the final path
component, including the dot, possibly empty. -/
def jsExtname (p : List Char) : List Char :=
  extnameAux (lastComponent p)

/-- Models Node path.basename(p, suffix) (POSIX): the final path component,
with the given suffix stripped when it is a proper trailing part of that
component. An empty suffix strips nothing; a suffix equal to the whole path
yields the empty result, and a suffix equal to the whole component is not
stripped, matching the Node implementation. -/
def jsBasename (p suffix : List Char) : List Char :=
  if suffix = [] then lastComponent p
  else if suffix = p then []
  else if suffix.length < (lastComponent p).length ∧
      (lastComponent p).drop ((lastComponent p).length - suffix.length) = suffix then
    (lastComponent p).take ((lastComponent p).length - suffix.length)
  else lastComponent p

/-! ## Filename allocator (server.js lines 17-27, storage.filename) -/

/-- Embeds the JS expression new Date().toISOString().replace(/[:.]/g, "-"):
a global single-character-class regex replacement is a character-wise map.
The ISO string itself is an input, since it comes from the clock. -/
def sanitizeTimestamp (s : List Char) : List Char :=
  s.map (fun c => if c = ':' ∨ c = '.' then '-' else c)

/-- Embeds storage.filename from server.js: the destination filename
is name_timestamp-ext built from path.basename, the sanitized ISO
timestamp and path.extname of the original name. -/
def multerFilename (originalname iso : List Char) : List Char :=
  jsBasename originalname (jsExtname originalname)
    ++ '_' :: sanitizeTimestamp iso
    ++ jsExtname originalname

/-- String-level wrapper for the filename allocator. -/
def multerFilenameS (originalname iso : String) : String :=
  List.asString (multerFilename originalname.data iso.data)

/-! ## Server configuration (server.js lines 9, 13, 29-36) -/

/-- The fixed HTTPS listening port (server.js line 9). -/
def PORT : Nat := 3443

/-- Models the Node variable holding the directory of the server script.
Its concrete value is environment dependent; a symbolic absolute path is
used, and no claim depends on its value. -/
def serverDirname : String := "/srv/media-transfer-software"

/-- Models path.join for a non-empty absolute base and a relative segment,
the only way the server uses it; no normalization is needed there. -/
def pathJoin (a b : String) : String := a ++ "/" ++ b

/-- The uploads directory, path.join of the server directory and
the literal uploads (server.js line 13). -/
def uploadsDir : String := pathJoin serverDirname "uploads"

/-- The limits object passed to multer (server.js lines 31-35). -/
structure MulterLimits where
  fileSize : Nat
  fieldSize : Nat
  files : Nat
deriving DecidableEq

/-- The configured limits: 10000 MiB file size, 50 MiB field size,
one file per request (server.js lines 31-35). -/
def multerLimits : MulterLimits :=
  { fileSize := 10000 * 1024 * 1024
    fieldSize := 50 * 1024 * 1024
    files := 1 }

/-! ## Model of the multer middleware

multer is a third-party dependency; the definitions below model its
documented behavior for upload.single: enforce the configured limits on the
incoming multipart stream and either fail with a MulterError or hand the
handler a saved file description. A MulterError carries a short code and a
human-readable message; multer also records the offending field name, which
server.js never reads and which is therefore omitted. multer sets no other
property on the error: in particular it has no limit property, so the JS
read err.limit yields undefined, modelled by the limit? field always being
none. -/

/-- Model of a multer error object: the code and message multer sets, plus
the absent limit property that server.js reads (always none, since no
multer error carries a limit value). -/
structure MulterError where
  code : String
  message : String
  limit? : Option Nat
deriving DecidableEq

/-- An incoming file field of a multipart upload request. -/
structure IncomingFile where
  originalname : String
  mimetype : String
  size : Nat
deriving DecidableEq

/-- An upload request as the multer middleware sees it: at most one file
field, an optional path text field, and the size in bytes of the largest
non-file field value. -/
structure UploadRequest where
  file : Option IncomingFile
  bodyPath : Option String
  maxFieldValueSize : Nat
deriving DecidableEq

/-- The file description multer hands the route handler after saving the
file with the configured diskStorage: original name, allocated on-disk
name, size, mime type, and full saved path. -/
structure SavedFile where
  originalname : String
  filename : String
  size : Nat
  mimetype : String
  path : String
deriving DecidableEq

/-- Builds the SavedFile for an accepted upload: the name comes from the
storage.filename allocator and the path from the uploads directory. -/
def mkSavedFile (f : IncomingFile) (iso : String) : SavedFile :=
  let fn := multerFilenameS f.originalname iso
  { originalname := f.originalname
    filename := fn
    size := f.size
    mimetype := f.mimetype
    path := pathJoin uploadsDir fn }

/-- Modelled from the multer library (not repository code): upload.single
streams the request, failing with code LIMIT_FILE_SIZE and message File too
large when the file exceeds limits.fileSize, and with code LIMIT_FIELD_VALUE
and message Field value too long when a non-file field value exceeds
limits.fieldSize; otherwise it yields the optional saved file and the path
text field. The model checks the file limit before the field limit; no
multer error carries a limit property. -/
def multerProcess (limits : MulterLimits) (req : UploadRequest) (iso : String) :
    Except MulterError (Option SavedFile × Option String) :=
  match req.file with
  | some f =>
    if limits.fileSize < f.size then
      Except.error { code := "LIMIT_FILE_SIZE", message := "File too large", limit? := none }
    else if limits.fieldSize < req.maxFieldValueSize then
      Except.error { code := "LIMIT_FIELD_VALUE", message := "Field value too long", limit? := none }
    else
      Except.ok (some (mkSavedFile f iso), req.bodyPath)
  | none =>
    if limits.fieldSize < req.maxFieldValueSize then
      Except.error { code := "LIMIT_FIELD_VALUE", message := "Field value too long", limit? := none }
    else
      Except.ok (none, req.bodyPath)

/-- Modelled from the multer library: the files that remain on disk after
the middleware runs. A file is written only when the request is accepted
with a file present; on a limit error multer removes any partial file. -/
def multerWritten (limits : MulterLimits) (req : UploadRequest) (iso : String) : List String :=
  match multerProcess limits req iso with
  | Except.ok (some f, _) => [f.filename]
  | _ => []

/-! ## Upload route handler (server.js lines 40-116) -/

/-- Models the JS template fragment appearing on server.js line 51, the
string rendering of Math.round(err.limit / 1024 / 1024). When the property
is absent (undefined), dividing gives NaN, Math.round(NaN) is NaN, and the
template renders the string NaN. When it is a number n below 2 to the 53,
the double arithmetic is exact and rounding half up gives
(n + 524288) / 1048576 in integer arithmetic. -/
def limitMBText (limit? : Option Nat) : String :=
  match limit? with
  | none => "NaN"
  | some n => Nat.repr ((n + 524288) / 1048576)

/-- Models the JS expression a || b for an optional string a: the empty
string is falsy, so it falls through to b, as do null and undefined
(server.js line 79). -/
def jsOrString (a : Option String) (b : String) : String :=
  match a with
  | some s => if s = "" then b else s
  | none => b

/-- The fileInfo record built on a successful upload
(server.js lines 74-82). -/
structure FileInfo where
  originalName : String
  savedAs : String
  size : Nat
  mimeType : String
  path : String
  uploadTime : String
  savedPath : String
deriving DecidableEq

/-- Builds the fileInfo record from the saved file, the optional path text
field and the response-time ISO timestamp (server.js lines 74-82). -/
def mkFileInfo (f : SavedFile) (bodyPath : Option String) (now : String) : FileInfo :=
  { originalName := f.originalname
    savedAs := f.filename
    size := f.size
    mimeType := f.mimetype
    path := jsOrString bodyPath f.originalname
    uploadTime := now
    savedPath := f.path }

/-- The JSON envelope the upload route sends, together with its HTTP
status. Fields absent from a given response body are none. -/
structure UploadResponse where
  status : Nat
  success : Bool
  message : Option String
  error : Option String
  details : Option String
  maxSize : Option String
  file : Option FileInfo
deriving DecidableEq

/-- Embeds the multer error branch of the upload route (server.js lines
44-61): code LIMIT_FILE_SIZE gets a 413 with the limit text rendered from
the absent err.limit property and the literal maxSize 1GB; every other
multer error gets a 400 with the error message as details. -/
def handleMulterError (err : MulterError) : UploadResponse :=
  if err.code = "LIMIT_FILE_SIZE" then
    { status := 413
      success := false
      message := none
      error := some "File too large"
      details := some ("File size exceeds the limit of " ++ limitMBText err.limit? ++ "MB")
      maxSize := some "1GB"
      file := none }
  else
    { status := 400
      success := false
      message := none
      error := some "Upload error"
      details := some err.message
      maxSize := none
      file := none }

/-- Embeds the upload route callback (server.js lines 42-115): a multer
error goes to the error branch; a request with no file gets a 400 with the
No file uploaded error; otherwise a 200 success envelope carrying the
fileInfo record. The best-effort text preview logging (lines 86-99) has no
effect on the response and is not modelled. -/
def handleUpload (res : Except MulterError (Option SavedFile × Option String))
    (now : String) : UploadResponse :=
  match res with
  | Except.error err => handleMulterError err
  | Except.ok (none, _) =>
    { status := 400
      success := false
      message := none
      error := some "No file uploaded"
      details := none
      maxSize := none
      file := none }
  | Except.ok (some f, bodyPath) =>
    { status := 200
      success := true
      message := some "File uploaded successfully"
      error := none
      details := none
      maxSize := none
      file := some (mkFileInfo f bodyPath now) }

/-! ## File listing route (server.js lines 119-147) -/

/-- The result of an fs.stat call, as the listing route uses it: size in
bytes and modification time. -/
structure FsStats where
  size : Nat
  mtimeMs : Nat
deriving DecidableEq

/-- One element of the files array the listing route returns
(server.js lines 126-131). -/
structure FileDetail where
  name : String
  size : Nat
  modified : Nat
  path : String
deriving DecidableEq

/-- The JSON envelope of the files route with its HTTP status. -/
structure FilesResponse where
  status : Nat
  success : Bool
  files : List FileDetail
  error : Option String
  details : Option String
deriving DecidableEq

/-- The per-entry mapping of the listing route (server.js lines 123-132):
join the name to the uploads directory, stat that path, and package name,
size, modification time and path. -/
def mkFileDetail (stat : String → FsStats) (filename : String) : FileDetail :=
  let filePath := pathJoin uploadsDir filename
  { name := filename
    size := (stat filePath).size
    modified := (stat filePath).mtimeMs
    path := filePath }

/-- Embeds the files route (server.js lines 119-147). The readdir result
and the stat oracle are inputs standing for the filesystem. The JS code
maps the entries through Promise.all, whose documented behavior is to
resolve to the results in the order of the input array, so the embedding is
an order-preserving map; a readdir failure gives the 500 envelope. -/
def handleFiles (readdirResult : Except String (List String))
    (stat : String → FsStats) : FilesResponse :=
  match readdirResult with
  | Except.ok files =>
    { status := 200
      success := true
      files := files.map (mkFileDetail stat)
      error := none
      details := none }
  | Except.error e =>
    { status := 500
      success := false
      files := []
      error := some "Could not list files"
      details := some e }

/-! ## Health route (server.js lines 150-157) -/

/-- The JSON body of the health route with its HTTP status. -/
structure HealthResponse where
  status : Nat
  success : Bool
  message : String
  timestamp : String
  uploadsDirectory : String
deriving DecidableEq

/-- Embeds the health route (server.js lines 150-157): res.json with no
explicit status is HTTP 200; the timestamp input stands for
new Date().toISOString(). -/
def healthHandler (now : String) : HealthResponse :=
  { status := 200
    success := true
    message := "Server is running"
    timestamp := now
    uploadsDirectory := uploadsDir }

/-! ## HTTPS startup (server.js lines 160-181) -/

/-- The result of an fs.readFile call on a TLS material file. -/
inductive ReadResult where
  | ok (content : String)
  | ioError (msg : String)
deriving DecidableEq

/-- The observable end state of startHttpsServer: either a bound listener
on a port, with a flag telling whether it is a TLS listener, or a process
exit with a code. -/
inductive ServerState where
  | listening (port : Nat) (tls : Bool)
  | exited (code : Nat)
deriving DecidableEq

/-- The outcome of startup: the server state plus whether the error
branch logged. -/
structure StartOutcome where
  state : ServerState
  errorLogged : Bool
deriving DecidableEq

/-- Embeds startHttpsServer (server.js lines 160-179): both TLS files must
read successfully, in which case https.createServer binds a TLS listener on
PORT; if either read fails the catch branch logs and calls
process.exit(1). When the key read fails the cert read never happens, so
its value is irrelevant, which the catch-all match arm reflects. -/
def startHttpsServer (keyRead certRead : ReadResult) : StartOutcome :=
  match keyRead, certRead with
  | ReadResult.ok _, ReadResult.ok _ =>
    { state := ServerState.listening PORT true, errorLogged := false }
  | _, _ =>
    { state := ServerState.exited 1, errorLogged := true }

/-! ## Concrete inputs used by witnesses and counterexamples -/

/-- A request whose only content is a non-file field value one byte over
the 50 MiB field limit. -/
def reqOversizedField : UploadRequest :=
  { file := none, bodyPath := none, maxFieldValueSize := 50 * 1024 * 1024 + 1 }

/-- A request carrying a file one byte over the 10000 MiB file limit. -/
def reqOversizedFile : UploadRequest :=
  { file := some { originalname := "big.bin", mimetype := "application/octet-stream", size := 10000 * 1024 * 1024 + 1 }
    bodyPath := none
    maxFieldValueSize := 0 }

/-- The multer error produced for an oversized file. -/
def errFileTooLarge : MulterError :=
  { code := "LIMIT_FILE_SIZE", message := "File too large", limit? := none }

/-- A constant stat oracle for listing witnesses. -/
def statW : String → FsStats := fun _ => { size := 7, mtimeMs := 9 }

/-- A small well-formed upload request whose path field is the empty
string. -/
def reqEmptyPath : UploadRequest :=
  { file := some { originalname := "notes.txt", mimetype := "text/plain", size := 5 }
    bodyPath := some ""
    maxFieldValueSize := 0 }

/-! ## Helper lemmas about the path model -/

theorem dropWhile_eq_self_of_none (p : Char → Bool) (l : List Char)
    (h : ∀ a ∈ l, p a = false) : l.dropWhile p = l := by
  cases l with
  | nil => rfl
  | cons a as =>
    rw [List.dropWhile_cons, h a (List.mem_cons_self a as)]
    simp

theorem takeWhile_eq_self_of_all (p : Char → Bool) (l : List Char)
    (h : ∀ a ∈ l, p a = true) : l.takeWhile p = l := by
  induction l with
  | nil => rfl
  | cons a as ih =>
    rw [List.takeWhile_cons, h a (List.mem_cons_self a as)]
    simp only [if_true]
    rw [ih (fun b hb => h b (List.mem_cons_of_mem a hb))]

theorem lastComponent_noSlash (l : List Char) (h : '/' ∉ l) : lastComponent l = l := by
  unfold lastComponent
  have hd : l.reverse.dropWhile (fun c => c == '/') = l.reverse := by
    apply dropWhile_eq_self_of_none
    intro a ha
    have ham : a ∈ l := List.mem_reverse.mp ha
    have hne : a ≠ '/' := fun he => h (he ▸ ham)
    simp [hne]
  have ht : l.reverse.takeWhile (fun c => !(c == '/')) = l.reverse := by
    apply takeWhile_eq_self_of_all
    intro a ha
    have ham : a ∈ l := List.mem_reverse.mp ha
    have hne : a ≠ '/' := fun he => h (he ▸ ham)
    simp [hne]
  rw [hd, ht, List.reverse_reverse]

theorem lastDotIdx_isSome_of_mem {l : List Char} (h : '.' ∈ l) :
    (lastDotIdx l).isSome = true := by
  induction l with
  | nil => cases h
  | cons c rest ih =>
    rcases List.mem_cons.mp h with hc | hm
    · simp only [lastDotIdx]
      cases hr : lastDotIdx rest with
      | some i => simp
      | none => simp [← hc]
    · have hs := ih hm
      simp only [lastDotIdx]
      cases hr : lastDotIdx rest with
      | some i => simp
      | none => rw [hr] at hs; cases hs

theorem lastDotIdx_lt_length : ∀ {l : List Char} {i : Nat},
    lastDotIdx l = some i → i < l.length := by
  intro l
  induction l with
  | nil => intro i h; cases h
  | cons c rest ih =>
    intro i h
    simp only [lastDotIdx] at h
    cases hr : lastDotIdx rest with
    | some j =>
      rw [hr] at h
      have : j + 1 = i := by cases h; rfl
      have hj := ih hr
      simp only [List.length_cons]
      omega
    | none =>
      rw [hr] at h
      by_cases hc : c = '.'
      · rw [if_pos hc] at h
        have : (0 : Nat) = i := by cases h; rfl
        simp only [List.length_cons]
        omega
      · rw [if_neg hc] at h
        cases h

theorem lastDotIdx_get : ∀ {l : List Char} {i : Nat},
    lastDotIdx l = some i → l[i]? = some '.' := by
  intro l
  induction l with
  | nil => intro i h; cases h
  | cons c rest ih =>
    intro i h
    simp only [lastDotIdx] at h
    cases hr : lastDotIdx rest with
    | some j =>
      rw [hr] at h
      have hji : j + 1 = i := by cases h; rfl
      rw [← hji, List.getElem?_cons_succ]
      exact ih hr
    | none =>
      rw [hr] at h
      by_cases hc : c = '.'
      · rw [if_pos hc] at h
        have h0 : (0 : Nat) = i := by cases h; rfl
        rw [← h0, List.getElem?_cons_zero, hc]
      · rw [if_neg hc] at h
        cases h

theorem lastDotIdx_no_dot_after : ∀ {l : List Char} {i : Nat},
    lastDotIdx l = some i → '.' ∉ l.drop (i + 1) := by
  intro l
  induction l with
  | nil => intro i h; cases h
  | cons c rest ih =>
    intro i h
    simp only [lastDotIdx] at h
    cases hr : lastDotIdx rest with
    | some j =>
      rw [hr] at h
      have hji : j + 1 = i := by cases h; rfl
      rw [← hji]
      simp only [List.drop_succ_cons]
      exact ih hr
    | none =>
      rw [hr] at h
      by_cases hc : c = '.'
      · rw [if_pos hc] at h
        have h0 : (0 : Nat) = i := by cases h; rfl
        rw [← h0]
        simp only [List.drop_succ_cons, List.drop_zero]
        intro hm
        have := lastDotIdx_isSome_of_mem hm
        rw [hr] at this
        cases this
      · rw [if_neg hc] at h
        cases h

theorem two_dots_last_pos {l : List Char} (h : 2 ≤ l.count '.') :
    ∃ i, lastDotIdx l = some i ∧ 0 < i := by
  cases l with
  | nil => simp at h
  | cons c rest =>
    have hr1 : 1 ≤ rest.count '.' := by
      have hcc : (c :: rest).count '.' ≤ rest.count '.' + 1 := by
        rw [List.count_cons]
        split <;> omega
      omega
    have hmem : '.' ∈ rest := by
      by_contra hnm
      rw [List.count_eq_zero_of_not_mem hnm] at hr1
      omega
    have hs := lastDotIdx_isSome_of_mem hmem
    cases hj : lastDotIdx rest with
    | none => rw [hj] at hs; cases hs
    | some j =>
      refine ⟨j + 1, ?_, by omega⟩
      simp only [lastDotIdx]
      rw [hj]

theorem extnameAux_none {l : List Char} (hd : lastDotIdx l = none) :
    extnameAux l = [] := by
  unfold extnameAux
  rw [hd]

theorem extnameAux_some {l : List Char} {i : Nat} (hd : lastDotIdx l = some i) :
    extnameAux l = if i = 0 ∨ l = ['.', '.'] then [] else l.drop i := by
  unfold extnameAux
  rw [hd]

theorem jsBasename_nil (p : List Char) : jsBasename p [] = lastComponent p := by
  unfold jsBasename
  rw [if_pos rfl]

theorem jsBasename_drop (l : List Char) (i : Nat) (h : '/' ∉ l)
    (h0 : 0 < i) (hi : i < l.length) :
    jsBasename l (l.drop i) = l.take i := by
  have hlc := lastComponent_noSlash l h
  have hlen : (l.drop i).length = l.length - i := List.length_drop i l
  have hne : l.drop i ≠ [] := by
    intro he
    have h2 : (l.drop i).length = 0 := by rw [he]; rfl
    omega
  have hnel : l.drop i ≠ l := by
    intro he
    have h2 : (l.drop i).length = l.length := by rw [he]
    omega
  have hss : l.length - (l.drop i).length = i := by omega
  unfold jsBasename
  rw [if_neg hne, if_neg hnel, hlc, hss]
  rw [if_pos ⟨by omega, rfl⟩]

theorem base_append_ext (l : List Char) (h : '/' ∉ l) :
    jsBasename l (jsExtname l) ++ jsExtname l = l := by
  have hlc := lastComponent_noSlash l h
  have hext : jsExtname l = extnameAux l := by
    unfold jsExtname
    rw [hlc]
  cases hd : lastDotIdx l with
  | none =>
    have he : jsExtname l = [] := by rw [hext, extnameAux_none hd]
    rw [he, jsBasename_nil, hlc, List.append_nil]
  | some i =>
    by_cases hz : i = 0 ∨ l = ['.', '.']
    · have he : jsExtname l = [] := by rw [hext, extnameAux_some hd, if_pos hz]
      rw [he, jsBasename_nil, hlc, List.append_nil]
    · have he : jsExtname l = l.drop i := by rw [hext, extnameAux_some hd, if_neg hz]
      have hi := lastDotIdx_lt_length hd
      have h0 : 0 < i := by
        rcases Nat.eq_zero_or_pos i with h1 | h1
        · exact absurd (Or.inl h1) hz
        · exact h1
      rw [he, jsBasename_drop l i h h0 hi, List.take_append_drop]

/-! ## Claim theorems -/

/-- C1: for every uploaded file (original filename free of path
separators), the filename allocator produces a destination filename of the
form base, underscore, timestamp, extension, where the extension is
path.extname of the original name (including the dot, possibly empty), the
base is the original filename without that extension (base concatenated
with the extension restores the original name), and the timestamp is the
ISO-8601 upload instant with every colon and dot character replaced by a
hyphen. -/
theorem multerFilename_spec (orig iso : List Char) (h : '/' ∉ orig) :
    multerFilename orig iso =
      jsBasename orig (jsExtname orig)
        ++ '_' :: iso.map (fun c => if c = ':' ∨ c = '.' then '-' else c)
        ++ jsExtname orig
    ∧ jsBasename orig (jsExtname orig) ++ jsExtname orig = orig :=
  ⟨rfl, base_append_ext orig h⟩

/-- C1 witness: the allocator on the name report.json at a concrete upload
instant, evaluated to the concrete destination filename. -/
theorem multerFilename_spec_witness :
    multerFilename ("report.json").data ("2026-10-11T12:00:00.000Z").data
      = ("report_2026-10-11T12-00-00-000Z.json").data := by
  have h := multerFilename_spec ("report.json").data ("2026-10-11T12:00:00.000Z").data (by decide)
  exact h.1.trans (by decide)

/-- C2 evidence: evaluating the upload route on a request whose file is one
byte over the configured limit. The response has status 413 and success
false as the claim says, but its details message is the string File size
exceeds the limit of NaNMB, which does not contain the configured limit in
MB: the code reads err.limit, a property multer never sets, so the template
renders NaN instead of 10000. -/
theorem upload_oversized_nan_details :
    (handleUpload (multerProcess multerLimits reqOversizedFile "2026-01-02T03:04:05.006Z")
        "2026-01-02T03:04:06.000Z").status = 413 ∧
    (handleUpload (multerProcess multerLimits reqOversizedFile "2026-01-02T03:04:05.006Z")
        "2026-01-02T03:04:06.000Z").success = false ∧
    (handleUpload (multerProcess multerLimits reqOversizedFile "2026-01-02T03:04:05.006Z")
        "2026-01-02T03:04:06.000Z").details
      = some "File size exceeds the limit of NaNMB" ∧
    ¬ ((Nat.repr (multerLimits.fileSize / 1024 / 1024) ++ "MB").data <:+:
        ("File size exceeds the limit of NaNMB").data) := by
  refine ⟨rfl, rfl, rfl, by decide⟩

/-- C3: an otherwise well-formed upload request (fields within the limit)
with no file field gets status 400, success false, the explicit
No file uploaded error, no file record, and no file is written. -/
theorem upload_no_file (req : UploadRequest) (iso now : String)
    (hf : req.file = none) (hfield : req.maxFieldValueSize ≤ multerLimits.fieldSize) :
    (handleUpload (multerProcess multerLimits req iso) now).status = 400 ∧
    (handleUpload (multerProcess multerLimits req iso) now).success = false ∧
    (handleUpload (multerProcess multerLimits req iso) now).error = some "No file uploaded" ∧
    (handleUpload (multerProcess multerLimits req iso) now).file = none ∧
    multerWritten multerLimits req iso = [] := by
  have hp : multerProcess multerLimits req iso = Except.ok (none, req.bodyPath) := by
    simp only [multerProcess, hf]
    rw [if_neg (Nat.not_lt.mpr hfield)]
  refine ⟨?_, ?_, ?_, ?_, ?_⟩ <;> simp [handleUpload, hp, multerWritten]

/-- C3 witness: the no-file response at a concrete empty request. -/
theorem upload_no_file_witness :
    (handleUpload
        (multerProcess multerLimits
          { file := none, bodyPath := none, maxFieldValueSize := 0 }
          "2026-03-01T00:00:00.000Z")
        "2026-03-01T00:00:01.000Z").status = 400 ∧
    (handleUpload
        (multerProcess multerLimits
          { file := none, bodyPath := none, maxFieldValueSize := 0 }
          "2026-03-01T00:00:00.000Z")
        "2026-03-01T00:00:01.000Z").success = false ∧
    (handleUpload
        (multerProcess multerLimits
          { file := none, bodyPath := none, maxFieldValueSize := 0 }
          "2026-03-01T00:00:00.000Z")
        "2026-03-01T00:00:01.000Z").error = some "No file uploaded" ∧
    (handleUpload
        (multerProcess multerLimits
          { file := none, bodyPath := none, maxFieldValueSize := 0 }
          "2026-03-01T00:00:00.000Z")
        "2026-03-01T00:00:01.000Z").file = none ∧
    multerWritten multerLimits
        { file := none, bodyPath := none, maxFieldValueSize := 0 }
        "2026-03-01T00:00:00.000Z" = [] :=
  upload_no_file _ _ _ rfl (Nat.zero_le _)

/-- C4: for a readable uploads directory with N entries, the files route
answers 200 and success true with exactly N result entries, and the entry
at every index corresponds to the directory entry at the same index,
carrying that entry name together with the size and modification time the
stat call on its joined path reports; order follows directory enumeration
order because Promise.all resolves in input order. -/
theorem files_listing (entries : List String) (stat : String → FsStats) :
    (handleFiles (Except.ok entries) stat).status = 200 ∧
    (handleFiles (Except.ok entries) stat).success = true ∧
    (handleFiles (Except.ok entries) stat).files.length = entries.length ∧
    ∀ (i : Nat) (fd : FileDetail), (handleFiles (Except.ok entries) stat).files[i]? = some fd →
      ∃ nm, entries[i]? = some nm ∧ fd.name = nm ∧
        fd.size = (stat (pathJoin uploadsDir nm)).size ∧
        fd.modified = (stat (pathJoin uploadsDir nm)).mtimeMs ∧
        fd.path = pathJoin uploadsDir nm := by
  refine ⟨rfl, rfl, by simp [handleFiles], ?_⟩
  intro i fd hfd
  simp only [handleFiles] at hfd
  rw [List.getElem?_map] at hfd
  cases hnm : entries[i]? with
  | none => rw [hnm] at hfd; cases hfd
  | some nm =>
    rw [hnm] at hfd
    have hfd2 : some (mkFileDetail stat nm) = some fd := hfd
    have hfd3 : fd = mkFileDetail stat nm := (Option.some.inj hfd2).symm
    subst hfd3
    exact ⟨nm, rfl, rfl, rfl, rfl, rfl⟩

/-- C4 witness: a one-entry directory under a constant stat oracle. -/
theorem files_listing_witness :
    (handleFiles (Except.ok ["a.txt"]) statW).status = 200 ∧
    (handleFiles (Except.ok ["a.txt"]) statW).files.length = 1 ∧
    (mkFileDetail statW "a.txt").size = (statW (pathJoin uploadsDir "a.txt")).size := by
  have h := files_listing ["a.txt"] statW
  have hfd : (handleFiles (Except.ok ["a.txt"]) statW).files[0]? = some (mkFileDetail statW "a.txt") := by decide
  obtain ⟨nm, hnm, _, hsize, _, _⟩ := h.2.2.2 0 (mkFileDetail statW "a.txt") hfd
  have hnm2 : nm = "a.txt" := by
    have hx : (["a.txt"] : List String)[0]? = some "a.txt" := rfl
    rw [hx] at hnm
    exact (Option.some.inj hnm).symm
  exact ⟨h.1, h.2.2.1, by rw [hsize, hnm2]⟩

/-- C5: if either the TLS key read or the certificate read fails, startup
logs the error and ends in process exit code 1 (non-zero) with no listening
socket bound; moreover no startup outcome whatsoever binds a non-TLS
listener, so the service never serves over unencrypted transport. -/
theorem tls_failure_fatal (k c : ReadResult)
    (h : (∃ m, k = ReadResult.ioError m) ∨ (∃ m, c = ReadResult.ioError m)) :
    startHttpsServer k c = { state := ServerState.exited 1, errorLogged := true } ∧
    (∀ p tls, (startHttpsServer k c).state ≠ ServerState.listening p tls) ∧
    (∀ cd, (startHttpsServer k c).state = ServerState.exited cd → cd ≠ 0) ∧
    (∀ k2 c2 p tls, (startHttpsServer k2 c2).state = ServerState.listening p tls → tls = true) := by
  have hks : startHttpsServer k c = { state := ServerState.exited 1, errorLogged := true } := by
    rcases h with ⟨m, hm⟩ | ⟨m, hm⟩
    · subst hm
      cases c <;> rfl
    · subst hm
      cases k <;> rfl
  refine ⟨hks, ?_, ?_, ?_⟩
  · intro p tls
    rw [hks]
    intro hx
    cases hx
  · intro cd hcd
    rw [hks] at hcd
    have : (1 : Nat) = cd := by cases hcd; rfl
    omega
  · intro k2 c2 p tls hl
    cases k2 <;> cases c2 <;> simp [startHttpsServer] at hl
    exact hl.2

/-- C5 witness: a missing key file at a concrete input exits with code 1. -/
theorem tls_failure_fatal_witness :
    startHttpsServer (ReadResult.ioError "ENOENT: no such file or directory")
        (ReadResult.ok "certificate material") =
      { state := ServerState.exited 1, errorLogged := true } :=
  (tls_failure_fatal _ _ (Or.inl ⟨"ENOENT: no such file or directory", rfl⟩)).1

/-- C6 counterexample: a request whose only content is a non-file field one
byte over the 50 MiB field limit is a size violation, yet the response
status is 400, not 413: the route maps only the LIMIT_FILE_SIZE code to
413, and a field-size violation carries the code LIMIT_FIELD_VALUE. -/
theorem upload_field_413_cex :
    (handleUpload (multerProcess multerLimits reqOversizedField "2026-01-05T00:00:00.000Z")
        "2026-01-05T00:00:01.000Z").status = 400 ∧
    ¬ (handleUpload (multerProcess multerLimits reqOversizedField "2026-01-05T00:00:00.000Z")
        "2026-01-05T00:00:01.000Z").status = 413 := by
  refine ⟨rfl, by decide⟩

/-- C6 amended: for every upload request whose non-file field payload
exceeds the 50 MiB field limit (and whose file, if any, is within the file
limit), the response has status 400, success false, the Upload error code,
and the library message Field value too long as details. -/
theorem upload_field_too_large (req : UploadRequest) (iso now : String)
    (hfield : multerLimits.fieldSize < req.maxFieldValueSize)
    (hfile : ∀ f, req.file = some f → f.size ≤ multerLimits.fileSize) :
    (handleUpload (multerProcess multerLimits req iso) now).status = 400 ∧
    (handleUpload (multerProcess multerLimits req iso) now).success = false ∧
    (handleUpload (multerProcess multerLimits req iso) now).error = some "Upload error" ∧
    (handleUpload (multerProcess multerLimits req iso) now).details = some "Field value too long" := by
  have hp : multerProcess multerLimits req iso =
      Except.error { code := "LIMIT_FIELD_VALUE", message := "Field value too long", limit? := none } := by
    cases hrf : req.file with
    | some f =>
      simp only [multerProcess, hrf]
      rw [if_neg (Nat.not_lt.mpr (hfile f hrf)), if_pos hfield]
    | none =>
      simp only [multerProcess, hrf]
      rw [if_pos hfield]
  rw [hp]
  have h2 : handleUpload
      (Except.error { code := "LIMIT_FIELD_VALUE", message := "Field value too long", limit? := none }) now =
      handleMulterError { code := "LIMIT_FIELD_VALUE", message := "Field value too long", limit? := none } := rfl
  rw [h2]
  unfold handleMulterError
  rw [if_neg (by decide)]
  exact ⟨rfl, rfl, rfl, rfl⟩

/-- C6 witness: the amended claim at the concrete oversized-field
request. -/
theorem upload_field_too_large_witness :
    (handleUpload (multerProcess multerLimits reqOversizedField "2026-01-06T00:00:00.000Z")
        "2026-01-06T00:00:01.000Z").status = 400 ∧
    (handleUpload (multerProcess multerLimits reqOversizedField "2026-01-06T00:00:00.000Z")
        "2026-01-06T00:00:01.000Z").success = false ∧
    (handleUpload (multerProcess multerLimits reqOversizedField "2026-01-06T00:00:00.000Z")
        "2026-01-06T00:00:01.000Z").error = some "Upload error" ∧
    (handleUpload (multerProcess multerLimits reqOversizedField "2026-01-06T00:00:00.000Z")
        "2026-01-06T00:00:01.000Z").details = some "Field value too long" :=
  upload_field_too_large reqOversizedField _ _ (by decide) (fun f hf => nomatch hf)

/-- C7: the health route always answers 200 with success true, the message
Server is running, the request-time timestamp, and the uploads directory
path; it is a total function of the clock, with no failure path and no
dependence on prior upload or listing activity. -/
theorem health_always_ok (now : String) :
    (healthHandler now).status = 200 ∧
    (healthHandler now).success = true ∧
    (healthHandler now).message = "Server is running" ∧
    (healthHandler now).timestamp = now ∧
    (healthHandler now).uploadsDirectory = uploadsDir :=
  ⟨rfl, rfl, rfl, rfl, rfl⟩

/-- C8 counterexample: the concrete oversized-file error yields maxSize
1GB, but the same response does not report the configured 10000 MB limit
in its details message: the details read File size exceeds the limit of
NaNMB, with no digit sequence 10000 anywhere. -/
theorem maxSize_literal_cex :
    (handleMulterError errFileTooLarge).maxSize = some "1GB" ∧
    (handleMulterError errFileTooLarge).details = some "File size exceeds the limit of NaNMB" ∧
    ¬ (("10000").data <:+: ("File size exceeds the limit of NaNMB").data) := by
  refine ⟨rfl, rfl, by decide⟩

/-- C8 amended: every oversized-file (LIMIT_FILE_SIZE) response has status
413 and a maxSize field equal to the literal string 1GB, whatever value the
limit property holds; and since multer sets no limit property on the error,
the details message reports NaN MB rather than the configured limit. -/
theorem maxSize_literal (err : MulterError) (hc : err.code = "LIMIT_FILE_SIZE") :
    (handleMulterError err).status = 413 ∧
    (handleMulterError err).maxSize = some "1GB" ∧
    (err.limit? = none →
      (handleMulterError err).details = some "File size exceeds the limit of NaNMB") := by
  unfold handleMulterError
  rw [if_pos hc]
  refine ⟨rfl, rfl, fun hl => ?_⟩
  rw [hl]
  decide

/-- C8 witness: the amended claim at the concrete multer error object. -/
theorem maxSize_literal_witness :
    (handleMulterError errFileTooLarge).status = 413 ∧
    (handleMulterError errFileTooLarge).maxSize = some "1GB" :=
  ⟨(maxSize_literal errFileTooLarge rfl).1, (maxSize_literal errFileTooLarge rfl).2.1⟩

/-- C9: for every successful upload whose path form field is the empty
string, the file record path equals the original filename: the empty string
is falsy under the JS or-fallback, the same as an absent path field. -/
theorem upload_empty_path (req : UploadRequest) (f : IncomingFile) (iso now : String)
    (hf : req.file = some f) (hp : req.bodyPath = some "")
    (hsize : f.size ≤ multerLimits.fileSize)
    (hfield : req.maxFieldValueSize ≤ multerLimits.fieldSize) :
    (handleUpload (multerProcess multerLimits req iso) now).status = 200 ∧
    (handleUpload (multerProcess multerLimits req iso) now).file =
      some (mkFileInfo (mkSavedFile f iso) (some "") now) ∧
    (mkFileInfo (mkSavedFile f iso) (some "") now).path = f.originalname := by
  have hmp : multerProcess multerLimits req iso = Except.ok (some (mkSavedFile f iso), some "") := by
    simp only [multerProcess, hf]
    rw [if_neg (Nat.not_lt.mpr hsize), if_neg (Nat.not_lt.mpr hfield), hp]
  refine ⟨by rw [hmp]; rfl, by rw [hmp]; rfl, ?_⟩
  show jsOrString (some "") f.originalname = f.originalname
  unfold jsOrString
  simp

/-- C9 witness: the empty path field at a concrete small upload maps to the
original filename notes.txt. -/
theorem upload_empty_path_witness :
    (handleUpload (multerProcess multerLimits reqEmptyPath "2026-04-01T00:00:00.000Z")
        "2026-04-01T00:00:01.000Z").status = 200 ∧
    (mkFileInfo
        (mkSavedFile { originalname := "notes.txt", mimetype := "text/plain", size := 5 }
          "2026-04-01T00:00:00.000Z")
        (some "") "2026-04-01T00:00:01.000Z").path = "notes.txt" := by
  have h := upload_empty_path reqEmptyPath
      { originalname := "notes.txt", mimetype := "text/plain", size := 5 }
      "2026-04-01T00:00:00.000Z" "2026-04-01T00:00:01.000Z"
      rfl rfl (by decide) (Nat.zero_le _)
  exact ⟨h.1, h.2.2⟩

/-- C10 counterexample: the original filename consisting of two dots
contains more than one dot, yet the allocator does not place the substring
from its last dot after the timestamp: path.extname treats the component of
two dots specially and returns the empty extension, so the whole name stays
in the base and nothing follows the timestamp. -/
theorem multerFilename_multidot_cex :
    2 ≤ (("..").data.count '.') ∧
    multerFilename ("..").data ("2026-10-11T12:00:00.000Z").data
      = (".._2026-10-11T12-00-00-000Z").data ∧
    multerFilename ("..").data ("2026-10-11T12:00:00.000Z").data ≠
      (".").data ++ '_' :: sanitizeTimestamp ("2026-10-11T12:00:00.000Z").data ++ (".").data := by
  refine ⟨by decide, by decide, by decide⟩

/-- C10 amended: for every separator-free original filename other than the
literal two-dot name that contains more than one dot, only the final
extension segment (the substring from the last dot, which contains no
further dot) is placed after the timestamp, and everything before the last
dot, earlier dotted segments included, remains in the base. -/
theorem multerFilename_multidot (orig iso : List Char) (h : '/' ∉ orig)
    (hc : 2 ≤ orig.count '.') (hne : orig ≠ ['.', '.']) :
    ∃ i, lastDotIdx orig = some i ∧ 0 < i ∧ orig[i]? = some '.' ∧
      '.' ∉ orig.drop (i + 1) ∧
      multerFilename orig iso = orig.take i ++ '_' :: sanitizeTimestamp iso ++ orig.drop i := by
  obtain ⟨i, hd, h0⟩ := two_dots_last_pos hc
  refine ⟨i, hd, h0, lastDotIdx_get hd, lastDotIdx_no_dot_after hd, ?_⟩
  have hi := lastDotIdx_lt_length hd
  have hlc := lastComponent_noSlash orig h
  have he : jsExtname orig = orig.drop i := by
    unfold jsExtname
    rw [hlc, extnameAux_some hd, if_neg ?_]
    rintro (h1 | h2)
    · omega
    · exact hne h2
  unfold multerFilename
  rw [he, jsBasename_drop orig i h h0 hi]

/-- C10 witness: the amended claim at the concrete name a.tar.gz, whose
last dot sits at index 5. -/
theorem multerFilename_multidot_witness :
    ∃ i, lastDotIdx ("a.tar.gz").data = some i ∧ 0 < i ∧ ("a.tar.gz").data[i]? = some '.' ∧
      '.' ∉ ("a.tar.gz").data.drop (i + 1) ∧
      multerFilename ("a.tar.gz").data ("2026-02-03T04:05:06.007Z").data =
        ("a.tar.gz").data.take i ++ '_' :: sanitizeTimestamp ("2026-02-03T04:05:06.007Z").data
          ++ ("a.tar.gz").data.drop i :=
  multerFilename_multidot ("a.tar.gz").data ("2026-02-03T04:05:06.007Z").data
    (by decide) (by decide) (by decide)
